import Mathlib

/-!
Verification of the shapes2d primitive library: a shallow embedding of the
2d geometric value types (Vec2 collaborator, Point, Line, Ray, Rectangle,
Circle, Triangle) with the scalar type idealized as the real numbers, and
proofs of the specified algebraic contracts of their accessors and mutators.
Each Rust method becomes a Lean function; in-place mutators become functions
returning the updated value.
-/

namespace Shapes2d

/-- The 2d vector collaborator type (glam Vec2): an ordered pair of scalars,
with the scalar type modelled by the real numbers. -/
structure Vec2 where
  x : ℝ
  y : ℝ

namespace Vec2

/-- Vec2::ZERO -/
def zero : Vec2 := ⟨0, 0⟩

/-- Vec2::ONE -/
def one : Vec2 := ⟨1, 1⟩

/-- Vec2::NEG_ONE -/
def neg_one : Vec2 := ⟨-1, -1⟩

/-- Componentwise addition. -/
def add (a b : Vec2) : Vec2 := ⟨a.x + b.x, a.y + b.y⟩

/-- Componentwise subtraction. -/
def sub (a b : Vec2) : Vec2 := ⟨a.x - b.x, a.y - b.y⟩

/-- Multiplication of a vector by a scalar (glam `Vec2 * f32`). -/
def mul (v : Vec2) (s : ℝ) : Vec2 := ⟨v.x * s, v.y * s⟩

/-- Vec2::length, the Euclidean magnitude. -/
noncomputable def length (v : Vec2) : ℝ := Real.sqrt (v.x * v.x + v.y * v.y)

/-- Vec2::normalize_or_zero: the unit vector in the same direction, or the
zero vector when the magnitude is zero (the division-by-zero fallback). -/
noncomputable def normalize_or_zero (v : Vec2) : Vec2 :=
  if length v = 0 then zero else ⟨v.x / length v, v.y / length v⟩

/-- Vec2::max_element: the larger of the two components (signed comparison). -/
def max_element (v : Vec2) : ℝ := max v.x v.y

theorem length_nonneg (v : Vec2) : 0 ≤ v.length := Real.sqrt_nonneg _

theorem length_mk (a b : ℝ) : length ⟨a, b⟩ = Real.sqrt (a * a + b * b) := rfl

theorem length_eq_zero_iff (v : Vec2) : v.length = 0 ↔ v = zero := by
  unfold length
  rw [show (0 : ℝ) = Real.sqrt 0 by simp]
  rw [Real.sqrt_inj (add_nonneg (mul_self_nonneg _) (mul_self_nonneg _)) le_rfl]
  constructor
  · intro h
    have hx : v.x = 0 := by nlinarith [mul_self_nonneg v.x, mul_self_nonneg v.y]
    have hy : v.y = 0 := by nlinarith [mul_self_nonneg v.x, mul_self_nonneg v.y]
    cases v
    simp_all [zero]
  · intro h
    subst h
    simp [zero]

theorem sub_eq_zero_iff (a b : Vec2) : a.sub b = zero ↔ a = b := by
  cases a
  cases b
  simp [sub, zero, mk.injEq, sub_eq_zero]

theorem mul_self_length (v : Vec2) : v.length * v.length = v.x * v.x + v.y * v.y :=
  Real.mul_self_sqrt (add_nonneg (mul_self_nonneg _) (mul_self_nonneg _))

theorem length_normalize_or_zero (v : Vec2) (h : v ≠ zero) :
    v.normalize_or_zero.length = 1 := by
  have hL : v.length ≠ 0 := fun h0 => h ((length_eq_zero_iff v).mp h0)
  have hsq := mul_self_length v
  unfold normalize_or_zero
  rw [if_neg hL, length_mk]
  have harg : v.x / v.length * (v.x / v.length) + v.y / v.length * (v.y / v.length) = 1 := by
    field_simp
    linarith [hsq]
  rw [harg, Real.sqrt_one]

theorem normalize_or_zero_zero : normalize_or_zero zero = zero := by
  unfold normalize_or_zero
  rw [if_pos ((length_eq_zero_iff zero).mpr rfl)]

theorem normalize_or_zero_eq_mul (v : Vec2) (h : v ≠ zero) :
    v.normalize_or_zero = v.mul (1 / v.length) := by
  have hL : v.length ≠ 0 := fun h0 => h ((length_eq_zero_iff v).mp h0)
  unfold normalize_or_zero
  rw [if_neg hL]
  simp [mul, div_eq_mul_inv]

theorem add_sub_cancel_right (a b : Vec2) : (a.add b).sub b = a := by
  cases a
  cases b
  simp [add, sub]

theorem sub_add_cancel_right (a b : Vec2) : (a.sub b).add b = a := by
  cases a
  cases b
  simp [add, sub]

theorem mul_one_right (a : Vec2) : a.mul 1 = a := by
  cases a
  simp [mul]

theorem eq_zero_of_components (v : Vec2) (hx : v.x = 0) (hy : v.y = 0) :
    v = zero := by
  cases v
  simp_all [zero]

theorem noz_unit_or_zero (v : Vec2) :
    (v.normalize_or_zero).length = 1 ∨ v.normalize_or_zero = zero := by
  by_cases h : v = zero
  · right
    rw [h, normalize_or_zero_zero]
  · left
    exact length_normalize_or_zero v h

end Vec2

/-- Rectangle: an axis-aligned rectangle stored as an unordered corner pair. -/
structure Rectangle where
  min : Vec2
  max : Vec2

namespace Rectangle

/-- Rectangle::new -/
def new (min_x min_y max_x max_y : ℝ) : Rectangle :=
  ⟨⟨min_x, min_y⟩, ⟨max_x, max_y⟩⟩

/-- Rectangle::new_coordinates -/
def new_coordinates (min max : Vec2) : Rectangle := ⟨min, max⟩

/-- Rectangle::new_dimensions -/
def new_dimensions (min : Vec2) (width height : ℝ) : Rectangle :=
  new_coordinates min ⟨min.x + width, min.y + height⟩

/-- Rectangle::x -/
def x (r : Rectangle) : ℝ := r.min.x

/-- Rectangle::min_x -/
def min_x (r : Rectangle) : ℝ := r.min.x

/-- Rectangle::max_x -/
def max_x (r : Rectangle) : ℝ := r.max.x

/-- Rectangle::y -/
def y (r : Rectangle) : ℝ := r.min.y

/-- Rectangle::min_y -/
def min_y (r : Rectangle) : ℝ := r.min.y

/-- Rectangle::max_y -/
def max_y (r : Rectangle) : ℝ := r.max.y

/-- Rectangle::width -/
def width (r : Rectangle) : ℝ := r.max.x - r.min.x

/-- Rectangle::height -/
def height (r : Rectangle) : ℝ := r.max.y - r.min.y

/-- Rectangle::size -/
def size (r : Rectangle) : Vec2 := ⟨r.width, r.height⟩

/-- Rectangle::position -/
def position (r : Rectangle) : Vec2 := r.min

/-- Rectangle::center -/
def center (r : Rectangle) : Vec2 :=
  ⟨(r.min.x + r.max.x) * 0.5, (r.min.y + r.max.y) * 0.5⟩

/-- Rectangle::set_min -/
def set_min (r : Rectangle) (min : Vec2) : Rectangle := { r with min := min }

/-- Rectangle::set_max -/
def set_max (r : Rectangle) (max : Vec2) : Rectangle := { r with max := max }

/-- Rectangle::set_x: `max.x += x - min.x; min.x = x` (translate on x). -/
def set_x (r : Rectangle) (x : ℝ) : Rectangle :=
  { min := ⟨x, r.min.y⟩, max := ⟨r.max.x + (x - r.min.x), r.max.y⟩ }

/-- Rectangle::set_min_x -/
def set_min_x (r : Rectangle) (x : ℝ) : Rectangle :=
  { r with min := ⟨x, r.min.y⟩ }

/-- Rectangle::set_max_x -/
def set_max_x (r : Rectangle) (x : ℝ) : Rectangle :=
  { r with max := ⟨x, r.max.y⟩ }

/-- Rectangle::set_y: `max.y += y - min.y; min.y = y` (translate on y). -/
def set_y (r : Rectangle) (y : ℝ) : Rectangle :=
  { min := ⟨r.min.x, y⟩, max := ⟨r.max.x, r.max.y + (y - r.min.y)⟩ }

/-- Rectangle::set_min_y -/
def set_min_y (r : Rectangle) (y : ℝ) : Rectangle :=
  { r with min := ⟨r.min.x, y⟩ }

/-- Rectangle::set_max_y -/
def set_max_y (r : Rectangle) (y : ℝ) : Rectangle :=
  { r with max := ⟨r.max.x, y⟩ }

/-- Rectangle::set_width: `max.x = min.x + width` -/
def set_width (r : Rectangle) (width : ℝ) : Rectangle :=
  { r with max := ⟨r.min.x + width, r.max.y⟩ }

/-- Rectangle::set_height: `max.y = min.y + height` -/
def set_height (r : Rectangle) (height : ℝ) : Rectangle :=
  { r with max := ⟨r.max.x, r.min.y + height⟩ }

/-- Rectangle::set_size: set_width then set_height -/
def set_size (r : Rectangle) (size : Vec2) : Rectangle :=
  (r.set_width size.x).set_height size.y

/-- Rectangle::set_position: set_x then set_y -/
def set_position (r : Rectangle) (position : Vec2) : Rectangle :=
  (r.set_x position.x).set_y position.y

/-- Rectangle::set_center: derive the new min from the center minus half of
the current size and delegate to set_position. -/
def set_center (r : Rectangle) (center : Vec2) : Rectangle :=
  r.set_position ⟨center.x - r.width * 0.5, center.y - r.height * 0.5⟩

end Rectangle

/-- Point: a single coordinate. -/
structure Point where
  coordinate : Vec2

namespace Point

/-- Point::new -/
def new (coordinate : Vec2) : Point := ⟨coordinate⟩

/-- Point::set_coordinate -/
def set_coordinate (_ : Point) (coordinate : Vec2) : Point := ⟨coordinate⟩

end Point

/-- Ray: an origin plus a stored direction kept unit length or zero. -/
structure Ray where
  origin : Vec2
  direction : Vec2

namespace Ray

/-- Ray::new_offset: `direction = (offset - origin).normalize_or_zero()` -/
noncomputable def new_offset (origin offset : Vec2) : Ray :=
  ⟨origin, (offset.sub origin).normalize_or_zero⟩

/-- Ray::new_direction: `direction = direction.normalize_or_zero()` -/
noncomputable def new_direction (origin direction : Vec2) : Ray :=
  ⟨origin, direction.normalize_or_zero⟩

/-- Ray::offset: reconstructs the point one unit along the ray,
`direction + origin`. -/
def offset (r : Ray) : Vec2 := r.direction.add r.origin

/-- Ray::set_origin: stores the origin verbatim. -/
def set_origin (r : Ray) (origin : Vec2) : Ray := { r with origin := origin }

/-- Ray::set_offset: `direction = (offset - origin).normalize_or_zero()`,
using the current origin. -/
noncomputable def set_offset (r : Ray) (offset : Vec2) : Ray :=
  { r with direction := (offset.sub r.origin).normalize_or_zero }

/-- Ray::set_direction: `direction = direction.normalize_or_zero()` -/
noncomputable def set_direction (r : Ray) (direction : Vec2) : Ray :=
  { r with direction := direction.normalize_or_zero }

/-- Ray::UP -/
def UP : Ray := ⟨Vec2.zero, ⟨0, 1⟩⟩

/-- Ray::RIGHT -/
def RIGHT : Ray := ⟨Vec2.zero, ⟨1, 0⟩⟩

/-- Ray::DOWN -/
def DOWN : Ray := ⟨Vec2.zero, ⟨0, -1⟩⟩

/-- Ray::LEFT -/
def LEFT : Ray := ⟨Vec2.zero, ⟨-1, 0⟩⟩

/-- The Ray invariant: the stored direction is unit length or exactly zero. -/
def dirUnitOrZero (r : Ray) : Prop :=
  r.direction.length = 1 ∨ r.direction = Vec2.zero

end Ray

/-- Line: a fixed origin and a fixed end coordinate. The Rust field `end` is
a Lean keyword, so it is written «end». -/
structure Line where
  origin : Vec2
  «end» : Vec2

namespace Line

/-- Line::new: stores both endpoints verbatim. -/
def new (origin e : Vec2) : Line := ⟨origin, e⟩

/-- Line::new_direction:
`end = origin + direction.normalize_or_zero() * distance`. -/
noncomputable def new_direction (origin direction : Vec2) (distance : ℝ) : Line :=
  ⟨origin, origin.add (direction.normalize_or_zero.mul distance)⟩

/-- Line::center -/
def center (l : Line) : Vec2 := (l.origin.add l.«end»).mul 0.5

/-- Line::direction: `end - origin`, non-normalized. -/
def direction (l : Line) : Vec2 := l.«end».sub l.origin

/-- Line::length: `direction().max_element()` -- the larger signed component,
not the Euclidean norm. -/
def length (l : Line) : ℝ := l.direction.max_element

end Line

/-- Circle: a center and a radius. -/
structure Circle where
  center : Vec2
  radius : ℝ

namespace Circle

/-- Circle::new -/
def new (center : Vec2) (radius : ℝ) : Circle := ⟨center, radius⟩

/-- Circle::new_diameter: `radius = diameter * 0.5` -/
def new_diameter (center : Vec2) (diameter : ℝ) : Circle :=
  new center (diameter * 0.5)

/-- Circle::diameter: `radius * 2` -/
def diameter (c : Circle) : ℝ := c.radius * 2

/-- Circle::set_center -/
def set_center (c : Circle) (center : Vec2) : Circle := { c with center := center }

/-- Circle::set_radius -/
def set_radius (c : Circle) (radius : ℝ) : Circle := { c with radius := radius }

/-- Circle::set_diameter: `radius = diameter * 0.5` -/
def set_diameter (c : Circle) (diameter : ℝ) : Circle :=
  { c with radius := diameter * 0.5 }

end Circle

/-- Triangle: three independently settable coordinates, no derived geometry. -/
structure Triangle where
  coordinate1 : Vec2
  coordinate2 : Vec2
  coordinate3 : Vec2

/-!
Claim theorems.
-/

/-- Claim C1: for every rectangle and every x, after set_x x the width is
unchanged and min_x equals x, max.x having been shifted by the same delta as
min.x; in particular for Rectangle.new 0 0 2 2, after set_x 1 the rectangle
has min_x 1, max_x 3 and width 2. -/
theorem set_x_translates_keeping_width :
    (∀ (r : Rectangle) (x : ℝ),
      (r.set_x x).width = r.width ∧ (r.set_x x).min_x = x ∧
      (r.set_x x).max_x = r.max_x + (x - r.min_x)) ∧
    (Rectangle.new 0 0 2 2).width = 2 ∧
    ((Rectangle.new 0 0 2 2).set_x 1).min_x = 1 ∧
    ((Rectangle.new 0 0 2 2).set_x 1).max_x = 3 ∧
    ((Rectangle.new 0 0 2 2).set_x 1).width = 2 := by
  refine ⟨fun r x => ⟨?_, rfl, rfl⟩, ?_, rfl, ?_, ?_⟩
  · simp only [Rectangle.set_x, Rectangle.width]
    ring
  · norm_num [Rectangle.new, Rectangle.width]
  · norm_num [Rectangle.new, Rectangle.set_x, Rectangle.max_x]
  · norm_num [Rectangle.new, Rectangle.set_x, Rectangle.width]

/-- Claim C3: for every line, length equals the maximum of the two signed
components of direction, not the Euclidean norm; in particular for
Line.new (0,0) (2,0) the direction is (2,0) and the length is 2. -/
theorem line_length_is_max_component :
    (∀ l : Line, l.length = max l.direction.x l.direction.y) ∧
    (Line.new ⟨0, 0⟩ ⟨2, 0⟩).direction = ⟨2, 0⟩ ∧
    (Line.new ⟨0, 0⟩ ⟨2, 0⟩).length = 2 := by
  refine ⟨fun l => rfl, ?_, ?_⟩
  · norm_num [Line.new, Line.direction, Vec2.sub]
  · norm_num [Line.new, Line.length, Line.direction, Vec2.sub, Vec2.max_element]

/-- Claim C4: for every rectangle and every w, after set_width w the width
equals w and the min corner is unchanged, both components identical. -/
theorem set_width_spec :
    ∀ (r : Rectangle) (w : ℝ),
      (r.set_width w).width = w ∧ (r.set_width w).min = r.min := by
  intro r w
  constructor
  · simp only [Rectangle.set_width, Rectangle.width]
    ring
  · rfl

/-- Claim C6: each size-changing setter (set_min_x, set_max_x, set_min_y,
set_max_y, set_min, set_max) writes exactly the named scalar or corner and
leaves every other stored field unchanged. -/
theorem size_changing_setters_frame :
    ∀ (r : Rectangle) (v : ℝ) (c : Vec2),
      ((r.set_min_x v).min.x = v ∧ (r.set_min_x v).min.y = r.min.y ∧
        (r.set_min_x v).max = r.max) ∧
      ((r.set_max_x v).max.x = v ∧ (r.set_max_x v).max.y = r.max.y ∧
        (r.set_max_x v).min = r.min) ∧
      ((r.set_min_y v).min.y = v ∧ (r.set_min_y v).min.x = r.min.x ∧
        (r.set_min_y v).max = r.max) ∧
      ((r.set_max_y v).max.y = v ∧ (r.set_max_y v).max.x = r.max.x ∧
        (r.set_max_y v).min = r.min) ∧
      ((r.set_min c).min = c ∧ (r.set_min c).max = r.max) ∧
      ((r.set_max c).max = c ∧ (r.set_max c).min = r.min) := by
  intro r v c
  exact ⟨⟨rfl, rfl, rfl⟩, ⟨rfl, rfl, rfl⟩, ⟨rfl, rfl, rfl⟩, ⟨rfl, rfl, rfl⟩,
    ⟨rfl, rfl⟩, ⟨rfl, rfl⟩⟩

/-- Claim C7: the normalize-or-zero fallback sends the zero vector to the
zero vector, and for every origin and distance, Line.new_direction with the
zero direction yields a line whose end equals the origin regardless of the
distance -- a defined degenerate case, not a failure. -/
theorem new_direction_zero_degenerate :
    Vec2.normalize_or_zero Vec2.zero = Vec2.zero ∧
    ∀ (origin : Vec2) (distance : ℝ),
      (Line.new_direction origin Vec2.zero distance).«end» = origin ∧
      (Line.new_direction origin Vec2.zero distance).origin = origin := by
  refine ⟨Vec2.normalize_or_zero_zero, fun origin distance => ⟨?_, rfl⟩⟩
  unfold Line.new_direction
  rw [Vec2.normalize_or_zero_zero]
  cases origin
  simp [Vec2.add, Vec2.mul, Vec2.zero]

/-- Claim C9: Circle.new_diameter center d has radius d * 0.5; diameter
always returns radius * 2; set_diameter is the inverse of the diameter
formula, so set_diameter d followed by diameter returns d; in particular
Circle.new_diameter (0,0) 2 has radius 1. -/
theorem circle_diameter_algebra :
    (∀ (c : Vec2) (d : ℝ), (Circle.new_diameter c d).radius = d * 0.5) ∧
    (∀ c : Circle, c.diameter = c.radius * 2) ∧
    (∀ (c : Circle) (d : ℝ), (c.set_diameter d).diameter = d) ∧
    (Circle.new_diameter ⟨0, 0⟩ 2).radius = 1 := by
  refine ⟨fun c d => rfl, fun c => rfl, fun c d => ?_, ?_⟩
  · simp only [Circle.set_diameter, Circle.diameter]
    norm_num
    ring
  · norm_num [Circle.new_diameter, Circle.new]

/-- Claim C10: Ray.set_origin changes only the origin field, leaving the
stored direction identical, and offset after set_origin o equals the
unchanged direction plus the new origin o. -/
theorem set_origin_keeps_direction :
    ∀ (r : Ray) (o : Vec2),
      (r.set_origin o).origin = o ∧
      (r.set_origin o).direction = r.direction ∧
      (r.set_origin o).offset = r.direction.add o := by
  intro r o
  exact ⟨rfl, rfl, rfl⟩

/-- Claim C5: for every rectangle and every point c, after set_center c the
width and height are unchanged and the center equals c (set_center derives
the new min as c minus half the current size and delegates to set_position). -/
theorem set_center_translates_keeping_size :
    ∀ (r : Rectangle) (c : Vec2),
      (r.set_center c).width = r.width ∧
      (r.set_center c).height = r.height ∧
      (r.set_center c).center = c := by
  intro r c
  refine ⟨?_, ?_, ?_⟩
  · simp only [Rectangle.set_center, Rectangle.set_position, Rectangle.set_x,
      Rectangle.set_y, Rectangle.width, Rectangle.height]
    ring
  · simp only [Rectangle.set_center, Rectangle.set_position, Rectangle.set_x,
      Rectangle.set_y, Rectangle.width, Rectangle.height]
    ring
  · cases c
    simp only [Rectangle.set_center, Rectangle.set_position, Rectangle.set_x,
      Rectangle.set_y, Rectangle.width, Rectangle.height, Rectangle.center,
      Vec2.mk.injEq]
    constructor <;> ring

/-- Claim C2: every Ray constructor establishes, and every Ray mutator
re-establishes (set_origin: preserves), that the stored direction is unit
length or exactly the zero vector; in particular set_direction d with d not
zero gives unit length and set_direction zero gives the zero vector. -/
theorem ray_direction_unit_or_zero :
    (∀ o p : Vec2, (Ray.new_offset o p).dirUnitOrZero) ∧
    (∀ o d : Vec2, (Ray.new_direction o d).dirUnitOrZero) ∧
    (∀ (r : Ray) (o : Vec2), r.dirUnitOrZero → (r.set_origin o).dirUnitOrZero) ∧
    (∀ (r : Ray) (p : Vec2), (r.set_offset p).dirUnitOrZero) ∧
    (∀ (r : Ray) (d : Vec2), (r.set_direction d).dirUnitOrZero) ∧
    (∀ (r : Ray) (d : Vec2), d ≠ Vec2.zero →
      ((r.set_direction d).direction).length = 1) ∧
    (∀ r : Ray, (r.set_direction Vec2.zero).direction = Vec2.zero) :=
  ⟨fun _ _ => Vec2.noz_unit_or_zero _, fun _ _ => Vec2.noz_unit_or_zero _,
    fun _ _ h => h, fun _ _ => Vec2.noz_unit_or_zero _,
    fun _ _ => Vec2.noz_unit_or_zero _,
    fun _ d hd => Vec2.length_normalize_or_zero d hd,
    fun _ => Vec2.normalize_or_zero_zero⟩

/-- Witness for claim C2 at concrete inputs: the UP ray satisfies the
invariant, set_origin preserves it there, setting the direction to the
nonzero vector (0,2) yields unit length, and setting it to zero yields the
zero vector. -/
theorem ray_direction_unit_or_zero_witness :
    Ray.UP.dirUnitOrZero ∧
    (Ray.UP.set_origin Vec2.one).dirUnitOrZero ∧
    (Vec2.mk 0 2 ≠ Vec2.zero ∧
      ((Ray.UP.set_direction ⟨0, 2⟩).direction).length = 1) ∧
    (Ray.UP.set_direction Vec2.zero).direction = Vec2.zero := by
  have hup : Ray.UP.dirUnitOrZero := by
    left
    rw [show Ray.UP.direction = ⟨0, 1⟩ from rfl, Vec2.length_mk]
    norm_num
  have hd : Vec2.mk 0 2 ≠ Vec2.zero := by
    simp [Vec2.zero, Vec2.mk.injEq]
  exact ⟨hup, ray_direction_unit_or_zero.2.2.1 Ray.UP Vec2.one hup,
    ⟨hd, ray_direction_unit_or_zero.2.2.2.2.2.1 Ray.UP ⟨0, 2⟩ hd⟩,
    ray_direction_unit_or_zero.2.2.2.2.2.2 Ray.UP⟩

/-- Claim C8: for every ray and every point p distinct from the origin,
set_offset p followed by offset yields the point colinear with the segment
from the origin toward p at unit distance from the origin, and it equals p
itself exactly when the distance from the origin to p is 1. -/
theorem set_offset_reconstructs_unit_point (r : Ray) (p : Vec2)
    (h : p ≠ r.origin) :
    (∃ t : ℝ, 0 < t ∧
      ((r.set_offset p).offset).sub r.origin = (p.sub r.origin).mul t) ∧
    (((r.set_offset p).offset).sub r.origin).length = 1 ∧
    ((r.set_offset p).offset = p ↔ (p.sub r.origin).length = 1) := by
  have hv : p.sub r.origin ≠ Vec2.zero := fun h0 =>
    h ((Vec2.sub_eq_zero_iff p r.origin).mp h0)
  have hL : (p.sub r.origin).length ≠ 0 := fun h0 =>
    hv ((Vec2.length_eq_zero_iff _).mp h0)
  have hLpos : 0 < (p.sub r.origin).length :=
    lt_of_le_of_ne (Vec2.length_nonneg _) (Ne.symm hL)
  have hoff : ((r.set_offset p).offset).sub r.origin =
      (p.sub r.origin).normalize_or_zero :=
    Vec2.add_sub_cancel_right _ _
  refine ⟨⟨1 / (p.sub r.origin).length, by positivity, ?_⟩, ?_, ?_⟩
  · rw [hoff, Vec2.normalize_or_zero_eq_mul _ hv]
  · rw [hoff]
    exact Vec2.length_normalize_or_zero _ hv
  · constructor
    · intro heq
      have h1 : (p.sub r.origin).normalize_or_zero = p.sub r.origin := by
        rw [← hoff, heq]
      rw [Vec2.normalize_or_zero_eq_mul _ hv] at h1
      have hx : (p.sub r.origin).x * (1 / (p.sub r.origin).length) =
          (p.sub r.origin).x := congrArg Vec2.x h1
      have hy : (p.sub r.origin).y * (1 / (p.sub r.origin).length) =
          (p.sub r.origin).y := congrArg Vec2.y h1
      have hcomp : (p.sub r.origin).x ≠ 0 ∨ (p.sub r.origin).y ≠ 0 := by
        by_contra hc
        push_neg at hc
        exact hv (Vec2.eq_zero_of_components _ hc.1 hc.2)
      have hinv : 1 / (p.sub r.origin).length = 1 := by
        rcases hcomp with hx0 | hy0
        · exact mul_left_cancel₀ hx0 (by rw [mul_one]; exact hx)
        · exact mul_left_cancel₀ hy0 (by rw [mul_one]; exact hy)
      field_simp at hinv
      exact hinv.symm
    · intro hlen
      show ((p.sub r.origin).normalize_or_zero).add r.origin = p
      rw [Vec2.normalize_or_zero_eq_mul _ hv, hlen,
        show (1 : ℝ) / 1 = 1 by norm_num, Vec2.mul_one_right,
        Vec2.sub_add_cancel_right]

/-- Witness for claim C8: for the UP ray and the point (0,2), which differs
from the origin, set_offset then offset gives a point at unit distance from
the origin on the segment toward (0,2). -/
theorem set_offset_reconstructs_unit_point_witness :
    Vec2.mk 0 2 ≠ Ray.UP.origin ∧
    ((∃ t : ℝ, 0 < t ∧
        ((Ray.UP.set_offset ⟨0, 2⟩).offset).sub Ray.UP.origin =
          ((Vec2.mk 0 2).sub Ray.UP.origin).mul t) ∧
      (((Ray.UP.set_offset ⟨0, 2⟩).offset).sub Ray.UP.origin).length = 1 ∧
      ((Ray.UP.set_offset ⟨0, 2⟩).offset = ⟨0, 2⟩ ↔
        ((Vec2.mk 0 2).sub Ray.UP.origin).length = 1)) := by
  have h : Vec2.mk 0 2 ≠ Ray.UP.origin := by
    simp [Ray.UP, Vec2.zero, Vec2.mk.injEq]
  exact ⟨h, set_offset_reconstructs_unit_point Ray.UP ⟨0, 2⟩ h⟩

end Shapes2d
